import Mathlib

/-!
Shallow embedding of the reaping engine of the `reaper` repository:
the filter/whitelist engine (`applyFilters`), the reap orchestration
loop (`reap` and its dispatch/statistics stages), the persisted-state
loader (`LoadState`), and the tokenized action-link constructors
(`makeURL` and friends).  Go maps are modelled as association lists,
Go panics as `Except.error`, and wall-clock time as an explicit
time-since-creation snapshot field.
-/

namespace Reaper

/-- Filter from the filters package: a function name and its ordered
string arguments (`filters.Filter`). -/
structure Filter where
  function : String
  arguments : List String
deriving DecidableEq, Repr

/-- The five reapable resource kinds handled by `applyFilters` and the
`reap` loop (instances, autoscaling groups, cloudformations, security
groups, volumes). -/
inductive ResourceKind where
  | inst
  | autoScalingGroup
  | cloudformation
  | securityGroup
  | volume
deriving DecidableEq, Repr

/-- A discovered resource as seen by the filter engine: the shared
identity/tag/dependency shape of `aws.Resource` plus the
kind-specific fields the configured filters inspect.  `sinceCreated`
is the time.Since snapshot of the creation time (nanoseconds), and
`desiredCapacity` models the optional autoscaling-group field
`DesiredCapacity` pointer. -/
structure Filterable where
  kind : ResourceKind
  region : String
  id : String
  name : String
  tags : List (String × String)
  dependency : Bool
  isInCloudformation : Bool
  reaperStateName : String
  desiredCapacity : Option Int
  sinceCreated : Option Int
deriving DecidableEq, Repr

/-- Resource.Tagged: the tag key is present (Go map membership). -/
def tagged (r : Filterable) (k : String) : Bool :=
  r.tags.any (fun p => p.1 == k)

/-- Resource.Tag: the tag value, or the empty string when the key is
absent (Go map zero value). -/
def tagValue (r : Filterable) (k : String) : String :=
  ((r.tags.find? (fun p => p.1 == k)).map Prod.snd).getD ""

/-- Direct argument indexing `filter.Arguments[i]` as it appears in the
source; an out-of-range index is a Go runtime panic, modelled as
`Except.error`. -/
def argAt (f : Filter) (i : Nat) : Except Unit String :=
  match f.arguments.get? i with
  | some a => .ok a
  | none => .error ()

/-- Fold a digit list into a number; `none` on any non-digit. -/
def digitsToNatAux : List Char → Nat → Option Nat
  | [], acc => some acc
  | c :: rest, acc =>
    if c.isDigit then digitsToNatAux rest (acc * 10 + (c.toNat - '0'.toNat))
    else none

/-- Modelled from the spec: strconv-style base-10 integer parsing, as
used by Int64Value of the filters package (the filters package is not
under src/).  64-bit overflow is not reachable by any claim and is not
modelled. -/
def parseIntOpt (s : String) : Option Int :=
  match s.data with
  | [] => none
  | '-' :: ds =>
    match ds with
    | [] => none
    | _ => (digitsToNatAux ds 0).map (fun n => -(n : Int))
  | '+' :: ds =>
    match ds with
    | [] => none
    | _ => (digitsToNatAux ds 0).map (fun n => (n : Int))
  | ds => (digitsToNatAux ds 0).map (fun n => (n : Int))

/-- Modelled from the spec: strconv.ParseBool's accepted forms, as used
by BoolValue of the filters package (the filters package is not under
src/). -/
def parseBoolOpt (s : String) : Option Bool :=
  if s ∈ ["1", "t", "T", "TRUE", "true", "True"] then some true
  else if s ∈ ["0", "f", "F", "FALSE", "false", "False"] then some false
  else none

/-- Modelled from the spec: filters.Filter.Int64Value(i) parses the
i-th argument as an integer; a missing or unparsable argument is a
handled error (the caller treats it as a non-match). -/
def int64Value (f : Filter) (i : Nat) : Option Int :=
  (f.arguments.get? i).bind parseIntOpt

/-- Modelled from the spec: filters.Filter.BoolValue(i) parses the
i-th argument as a boolean. -/
def boolValue (f : Filter) (i : Nat) : Option Bool :=
  (f.arguments.get? i).bind parseBoolOpt

/-- Modelled from the spec: Go time.ParseDuration on the fragment used
in filter configurations, digits followed by an h, m or s unit;
returns nanoseconds. -/
def parseDurationOpt (s : String) : Option Int :=
  match s.data.getLast? with
  | some 'h' =>
    match s.data.dropLast with
    | [] => none
    | ds => (digitsToNatAux ds 0).map (fun n => ((n * 3600000000000 : Nat) : Int))
  | some 'm' =>
    match s.data.dropLast with
    | [] => none
    | ds => (digitsToNatAux ds 0).map (fun n => ((n * 60000000000 : Nat) : Int))
  | some 's' =>
    match s.data.dropLast with
    | [] => none
    | ds => (digitsToNatAux ds 0).map (fun n => ((n * 1000000000 : Nat) : Int))
  | _ => none

/-- List-of-chars prefix test, used to model strings.Contains. -/
def isPrefixL : List Char → List Char → Bool
  | [], _ => true
  | _ :: _, [] => false
  | a :: as, b :: bs => a == b && isPrefixL as bs

/-- Substring occurrence of `sub` inside `l`, modelling strings.Contains. -/
def containsSubL (sub : List Char) : List Char → Bool
  | [] => isPrefixL sub []
  | c :: rest => isPrefixL sub (c :: rest) || containsSubL sub rest

/-- strings.Contains(s, sub). -/
def containsSubstr (s sub : String) : Bool :=
  containsSubL sub.data s.data

/-- AutoScalingGroup.sizeGreaterThanOrEqualTo (src/aws/autoscaling.go):
false when DesiredCapacity is nil. -/
def sizeGreaterThanOrEqualTo (a : Filterable) (size : Int) : Bool :=
  match a.desiredCapacity with
  | some c => c ≥ size
  | none => false

/-- AutoScalingGroup.sizeLessThanOrEqualTo (src/aws/autoscaling.go). -/
def sizeLessThanOrEqualTo (a : Filterable) (size : Int) : Bool :=
  match a.desiredCapacity with
  | some c => c ≤ size
  | none => false

/-- AutoScalingGroup.sizeEqualTo (src/aws/autoscaling.go). -/
def sizeEqualTo (a : Filterable) (size : Int) : Bool :=
  match a.desiredCapacity with
  | some c => c == size
  | none => false

/-- AutoScalingGroup.sizeLessThan (src/aws/autoscaling.go). -/
def sizeLessThan (a : Filterable) (size : Int) : Bool :=
  match a.desiredCapacity with
  | some c => c < size
  | none => false

/-- AutoScalingGroup.sizeGreaterThan (src/aws/autoscaling.go). -/
def sizeGreaterThan (a : Filterable) (size : Int) : Bool :=
  match a.desiredCapacity with
  | some c => c > size
  | none => false

/-- AutoScalingGroup.Filter (src/aws/autoscaling.go lines 300-399).
Cases indexing filter.Arguments directly can panic on a short argument
list, modelled as `Except.error`; cases going through
Int64Value/BoolValue handle their errors as non-matches. -/
def asgFilter (a : Filterable) (f : Filter) : Except Unit Bool :=
  match f.function with
  | "SizeGreaterThan" =>
    .ok (match int64Value f 0 with
         | some i => sizeGreaterThan a i
         | none => false)
  | "SizeLessThan" =>
    .ok (match int64Value f 0 with
         | some i => sizeLessThan a i
         | none => false)
  | "SizeEqualTo" =>
    .ok (match int64Value f 0 with
         | some i => sizeEqualTo a i
         | none => false)
  | "SizeLessThanOrEqualTo" =>
    .ok (match int64Value f 0 with
         | some i => sizeLessThanOrEqualTo a i
         | none => false)
  | "SizeGreaterThanOrEqualTo" =>
    .ok (match int64Value f 0 with
         | some i => sizeGreaterThanOrEqualTo a i
         | none => false)
  | "CreatedTimeInTheLast" =>
    match argAt f 0 with
    | .error e => .error e
    | .ok arg =>
      .ok (match parseDurationOpt arg, a.sinceCreated with
           | some d, some since => since < d
           | _, _ => false)
  | "CreatedTimeNotInTheLast" =>
    match argAt f 0 with
    | .error e => .error e
    | .ok arg =>
      .ok (match parseDurationOpt arg, a.sinceCreated with
           | some d, some since => since > d
           | _, _ => false)
  | "InCloudformation" =>
    .ok (match boolValue f 0 with
         | some b => a.isInCloudformation == b
         | none => false)
  | "Region" =>
    .ok (f.arguments.any (fun region => a.region == region))
  | "NotRegion" =>
    .ok (!f.arguments.any (fun region => a.region == region))
  | "Tagged" =>
    match argAt f 0 with
    | .error e => .error e
    | .ok k => .ok (tagged a k)
  | "NotTagged" =>
    match argAt f 0 with
    | .error e => .error e
    | .ok k => .ok (!tagged a k)
  | "TagNotEqual" =>
    match argAt f 0, argAt f 1 with
    | .ok k, .ok v => .ok (tagValue a k != v)
    | .error e, _ => .error e
    | _, .error e => .error e
  | "ReaperState" =>
    match argAt f 0 with
    | .error e => .error e
    | .ok s => .ok (a.reaperStateName == s)
  | "NotReaperState" =>
    match argAt f 0 with
    | .error e => .error e
    | .ok s => .ok (a.reaperStateName != s)
  | "Named" =>
    match argAt f 0 with
    | .error e => .error e
    | .ok n => .ok (a.name == n)
  | "NotNamed" =>
    match argAt f 0 with
    | .error e => .error e
    | .ok n => .ok (a.name != n)
  | "IsDependency" =>
    .ok (match boolValue f 0 with
         | some b => a.dependency == b
         | none => false)
  | "NameContains" =>
    match argAt f 0 with
    | .error e => .error e
    | .ok sub => .ok (containsSubstr a.name sub)
  | "NotNameContains" =>
    match argAt f 0 with
    | .error e => .error e
    | .ok sub => .ok (!containsSubstr a.name sub)
  | _ => .ok false

/-- Modelled from the spec: the Filter methods of Instance,
Cloudformation, SecurityGroup and Volume are not under src/; per spec
section 4.4 all kinds share the tag, region, dependency-flag, name and
lifecycle-state filter categories with the same semantics as the
AutoScalingGroup cases above.  Kind-specific numeric filters of those
kinds are not needed by any claim and evaluate as the default
case (logged, non-matching). -/
def genericFilter (a : Filterable) (f : Filter) : Except Unit Bool :=
  match f.function with
  | "InCloudformation" =>
    .ok (match boolValue f 0 with
         | some b => a.isInCloudformation == b
         | none => false)
  | "Region" =>
    .ok (f.arguments.any (fun region => a.region == region))
  | "NotRegion" =>
    .ok (!f.arguments.any (fun region => a.region == region))
  | "Tagged" =>
    match argAt f 0 with
    | .error e => .error e
    | .ok k => .ok (tagged a k)
  | "NotTagged" =>
    match argAt f 0 with
    | .error e => .error e
    | .ok k => .ok (!tagged a k)
  | "TagNotEqual" =>
    match argAt f 0, argAt f 1 with
    | .ok k, .ok v => .ok (tagValue a k != v)
    | .error e, _ => .error e
    | _, .error e => .error e
  | "ReaperState" =>
    match argAt f 0 with
    | .error e => .error e
    | .ok s => .ok (a.reaperStateName == s)
  | "NotReaperState" =>
    match argAt f 0 with
    | .error e => .error e
    | .ok s => .ok (a.reaperStateName != s)
  | "Named" =>
    match argAt f 0 with
    | .error e => .error e
    | .ok n => .ok (a.name == n)
  | "NotNamed" =>
    match argAt f 0 with
    | .error e => .error e
    | .ok n => .ok (a.name != n)
  | "IsDependency" =>
    .ok (match boolValue f 0 with
         | some b => a.dependency == b
         | none => false)
  | "NameContains" =>
    match argAt f 0 with
    | .error e => .error e
    | .ok sub => .ok (containsSubstr a.name sub)
  | "NotNameContains" =>
    match argAt f 0 with
    | .error e => .error e
    | .ok sub => .ok (!containsSubstr a.name sub)
  | _ => .ok false

/-- Dispatch of `filterable.Filter(filter)` on the concrete
kind, as the dynamic method call does in Go. -/
def filterEval (r : Filterable) (f : Filter) : Except Unit Bool :=
  match r.kind with
  | .autoScalingGroup => asgFilter r f
  | _ => genericFilter r f

/-- The configuration surface consumed by the reap loop: configured
AWS regions, the whitelist tag key, the event tag, and per-kind named
FilterGroups (Config in the reaper package; only the fields the core
reads are modelled).  The Go map from group name to FilterGroup is an
association list. -/
structure Config where
  regions : List String
  whitelistTag : String
  eventTag : String
  instancesFilterGroups : List (String × List Filter)
  autoScalingGroupsFilterGroups : List (String × List Filter)
  cloudformationsFilterGroups : List (String × List Filter)
  securityGroupsFilterGroups : List (String × List Filter)
  volumesFilterGroups : List (String × List Filter)
deriving DecidableEq, Repr

/-- The kind switch at the top of applyFilters (part_001 lines 673-692)
selecting the per-kind FilterGroups from the configuration. -/
def groupsFor (cfg : Config) : ResourceKind → List (String × List Filter)
  | .inst => cfg.instancesFilterGroups
  | .autoScalingGroup => cfg.autoScalingGroupsFilterGroups
  | .cloudformation => cfg.cloudformationsFilterGroups
  | .securityGroup => cfg.securityGroupsFilterGroups
  | .volume => cfg.volumesFilterGroups

/-- Modelled from the spec: filters.ApplyFilters (the filters package
is not under src/) is the AND over the filters of a group; a single failing
filter short-circuits the group to non-match.  A panic inside a filter
predicate propagates (`Except.error`). -/
def applyFiltersGroup (r : Filterable) : List Filter → Except Unit Bool
  | [] => .ok true
  | f :: rest =>
    match filterEval r f with
    | .ok b => if b then applyFiltersGroup r rest else .ok false
    | .error e => .error e

/-- The group loop of applyFilters (part_001 lines 713-719): `matched`
becomes true as soon as any group matches. -/
def groupLoop (r : Filterable) : List (String × List Filter) → Bool → Except Unit Bool
  | [], matched => .ok matched
  | (_, g) :: rest, matched =>
    match applyFiltersGroup r g with
    | .ok d => groupLoop r rest (matched || d)
    | .error e => .error e

/-- The per-resource body of applyFilters (part_001 lines 670-731):
vacuous match when there are no groups or only empty groups, then the
OR-of-groups loop, then the whitelist check
`filterable.Filter(NewFilter("Tagged", [config.WhitelistTag]))` which
overrides a positive match. -/
def resourceMatches (cfg : Config) (r : Filterable) : Except Unit Bool :=
  let groups := groupsFor cfg r.kind
  let matchedInit := groups.isEmpty || groups.all (fun g => g.2.isEmpty)
  match groupLoop r groups matchedInit with
  | .error e => .error e
  | .ok matched =>
    match filterEval r (Filter.mk "Tagged" [cfg.whitelistTag]) with
    | .error e => .error e
    | .ok wl => .ok (if wl then false else matched)

/-- The loop of applyFilters over the batch, before panic recovery:
resources whose final `matched` is true are appended in order; a panic
anywhere in the batch propagates. -/
def applyFiltersAux (cfg : Config) : List Filterable → Except Unit (List Filterable)
  | [] => .ok []
  | r :: rest =>
    match resourceMatches cfg r, applyFiltersAux cfg rest with
    | .ok m, .ok out => .ok (if m then r :: out else out)
    | .error e, _ => .error e
    | _, .error e => .error e

/-- applyFilters (part_001 lines 659-741): the deferred recover at the
function boundary turns a panic anywhere in the batch into a nil
(empty) result — the function returns its zero value after the panic
unwinds. -/
def applyFilters (cfg : Config) (filterables : List Filterable) : List Filterable :=
  match applyFiltersAux cfg filterables with
  | .ok gs => gs
  | .error _ => []

/-- The owner loop of reap (part_001 lines 170-188), written as a
recursion over the owner buckets in iteration order.  Returns the
owned part of `filtered`, the `filteredOwned` buckets, and the
singleton resources reclassified into the unowned list. -/
def reapOwnedLoop (cfg : Config) :
    List (String × List Filterable) →
    List Filterable × List (String × List Filterable) × List Filterable
  | [] => ([], [], [])
  | (owner, bucket) :: rest =>
    let resources := applyFilters cfg bucket
    let r := reapOwnedLoop cfg rest
    if resources.length = 1 then
      (r.1, r.2.1, resources ++ r.2.2)
    else
      (resources ++ r.1, (owner, resources) :: r.2.1, r.2.2)

/-- The result of the filtering stage of one reap tick. -/
structure ReapOutcome where
  filtered : List Filterable
  filteredOwned : List (String × List Filterable)
  filteredUnowned : List Filterable
deriving DecidableEq, Repr

/-- The filtering stage of reap (part_001 lines 161-192), starting
from the owned/unowned partition produced by allReapables: filter each
owner bucket, reclassify singleton buckets into the unowned list, then
filter the unowned list. -/
def reap (cfg : Config) (owned : List (String × List Filterable))
    (unowned : List Filterable) : ReapOutcome :=
  let r := reapOwnedLoop cfg owned
  let filteredUnowned := applyFilters cfg (unowned ++ r.2.2)
  { filtered := r.1 ++ filteredUnowned
    filteredOwned := r.2.1
    filteredUnowned := filteredUnowned }

/-- The batch-dispatch goroutine of reap (part_001 lines 226-234):
iterates the filteredOwned buckets, and on a bucket with fewer than
one resource executes `break`, abandoning every remaining bucket.
Returns the buckets for which NewBatchReapableEvent was attempted. -/
def dispatchAttempts : List (String × List Filterable) → List (String × List Filterable)
  | [] => []
  | (owner, ownedReapables) :: rest =>
    if ownedReapables.length < 1 then []
    else (owner, ownedReapables) :: dispatchAttempts rest

/-- Per-region tally increment, modelling `sums[region]++` on a Go map
represented as an association list in first-insertion order. -/
def bumpRegion : List (String × Nat) → String → List (String × Nat)
  | [], region => [(region, 1)]
  | (r, n) :: rest, region =>
    if r == region then (r, n + 1) :: rest
    else (r, n) :: bumpRegion rest region

/-- The per-kind per-region filtered sums built by the switch in reap
(part_001 lines 200-221). -/
def filteredSums (k : ResourceKind) (filtered : List Filterable) : List (String × Nat) :=
  filtered.foldl (fun sums f => if f.kind == k then bumpRegion sums f.region else sums) []

/-- The statistics goroutine of reap (part_001 lines 244-269): it
emits `reaper.<kind>.filtered` statistics for instances, asgs,
cloudformations and securitygroups — and for no other kind.  Each
entry is (statistic name, region, sum). -/
def emittedFilteredStats (filtered : List Filterable) : List (String × String × Nat) :=
  (filteredSums .inst filtered).map (fun p => ("reaper.instances.filtered", p.1, p.2))
    ++ (filteredSums .autoScalingGroup filtered).map
        (fun p => ("reaper.asgs.filtered", p.1, p.2))
    ++ (filteredSums .cloudformation filtered).map
        (fun p => ("reaper.cloudformations.filtered", p.1, p.2))
    ++ (filteredSums .securityGroup filtered).map
        (fun p => ("reaper.securitygroups.filtered", p.1, p.2))

/-- Split a character list at every occurrence of `sep`, modelling
the Go strings.Split function for a one-character separator (an empty input
yields one empty field, as in Go). -/
def splitChar (sep : Char) : List Char → List (List Char)
  | [] => [[]]
  | c :: rest =>
    let r := splitChar sep rest
    if c == sep then [] :: r
    else
      match r with
      | h :: t => (c :: h) :: t
      | [] => [[c]]

/-- strings.Split(s, sep) for a one-character separator. -/
def splitOnCharS (sep : Char) (s : String) : List String :=
  (splitChar sep s.data).map (fun l => String.mk l)

/-- Modelled from the spec: the five lifecycle state names of the
state package (not under src/). -/
inductive StateName where
  | ignore
  | first
  | second
  | third
  | final
deriving DecidableEq, Repr

/-- Modelled from the spec: parsing of a state name token from the
compact serialized form used by the persisted-state file (the scenario
line uses the uppercase form FIRST). -/
def stateNameOfString : String → Option StateName
  | "IGNORE" => some .ignore
  | "FIRST" => some .first
  | "SECOND" => some .second
  | "THIRD" => some .third
  | "FINAL" => some .final
  | _ => none

/-- Modelled from the spec: a lifecycle state instance of the state
package (not under src/): the state name, the state-entry timestamp
and the `until` timestamp, serialized as NAME|entry|until. -/
structure ReaperState where
  stateName : StateName
  entered : Int
  untilTime : Int
deriving DecidableEq, Repr

/-- Modelled from the spec: deserialization of the compact state
string; fails on any input not matching the grammar. -/
def parseStateTag (s : String) : Option ReaperState :=
  match splitOnCharS '|' s with
  | [n, t1, t2] =>
    match stateNameOfString n, parseIntOpt t1, parseIntOpt t2 with
    | some name, some e, some u => some ⟨name, e, u⟩
    | _, _, _ => none
  | _ => none

/-- Modelled from the spec: state.NewState, the freshly initialized
default state a resource starts in. -/
def newState : ReaperState := ⟨.first, 0, 0⟩

/-- Modelled from the spec: state.NewStateWithTag — deserialize, and
on a malformed input fall back to a freshly initialized state rather
than propagate the error. -/
def newStateWithTag (s : String) : ReaperState :=
  (parseStateTag s).getD newState

/-- Association-list lookup, modelling a Go map read (no panic on a
missing key). -/
def assocFind {α : Type} (m : List (String × α)) (k : String) : Option α :=
  (m.find? (fun p => p.1 == k)).map Prod.snd

/-- Association-list write, modelling a Go map assignment on a
non-nil map: overwrite the existing key or append a new one. -/
def assocSet {α : Type} (m : List (String × α)) (k : String) (v : α) : List (String × α) :=
  match m with
  | [] => [(k, v)]
  | (k0, v0) :: rest =>
    if k0 == k then (k0, v) :: rest
    else (k0, v0) :: assocSet rest k v

/-- The savedstates nested map: region → (id → saved state). -/
def SavedStates : Type := List (String × List (String × ReaperState))

instance : DecidableEq SavedStates := by
  unfold SavedStates
  infer_instance

/-- The line loop of LoadState (part_001 lines 141-153): a line that
does not split into exactly three comma-separated fields is skipped
(logged); for a three-field line the inner map `savedstates[region]`
is read — when the region was never initialized (not one of the
configured regions) the read yields the Go nil map and the assignment
`savedstates[region][id] = savedState` panics (`Except.error`);
otherwise the state parsed from the third field is stored. -/
def loadLoop : List String → SavedStates → Except Unit SavedStates
  | [], m => .ok m
  | l :: rest, m =>
    match splitOnCharS ',' l with
    | [region, id, tag] =>
      match assocFind m region with
      | none => .error ()
      | some inner => loadLoop rest (assocSet m region (assocSet inner id (newStateWithTag tag)))
    | _ => loadLoop rest m

/-- LoadState (part_001 lines 128-159) on the lines of the state file: the
saved-state map is initialized with one empty inner map per configured
region, then each line is processed by the line loop. -/
def LoadState (cfg : Config) (stateFileLines : List String) : Except Unit SavedStates :=
  loadLoop stateFileLines (cfg.regions.map (fun region => (region, [])))

/-- A freshly discovered instance as far as saved-state restoration is
concerned (getInstances, part_001 lines 345-371): its identity and its
reaper state, which starts at the default initial state. -/
structure InstanceR where
  region : String
  id : String
  reaperState : ReaperState
deriving DecidableEq, Repr

/-- The saved-state restoration in getInstances (part_001 lines
352-356): `savedstates[instance.Region][instance.ID]` (nested Go map
reads, safe on missing keys) and SetReaperState when present. -/
def applySavedState (saved : SavedStates) (i : InstanceR) : InstanceR :=
  match (assocFind saved i.region).bind (fun inner => assocFind inner i.id) with
  | some savedstate => { i with reaperState := savedstate }
  | none => i

/-- The HTTP configuration read by makeURL (aws package config):
the query-parameter names for the action and the token. -/
structure HTTPConfig where
  action : String
  token : String
deriving DecidableEq, Repr

/-- Characters that url.QueryEscape of Go leaves unescaped (RFC 3986
unreserved set); everything else is percent-encoded, space as a
plus sign.  ASCII model. -/
def shouldEscape (c : Char) : Bool :=
  !(c.isAlphanum || c == '-' || c == '_' || c == '.' || c == '~')

/-- Uppercase hexadecimal digit. -/
def hexDigit (n : Nat) : Char :=
  if n < 10 then Char.ofNat ('0'.toNat + n)
  else Char.ofNat ('A'.toNat + n - 10)

/-- url.QueryEscape of Go (ASCII model). -/
def queryEscape (s : String) : String :=
  String.mk (s.data.foldr
    (fun c acc =>
      if c == ' ' then '+' :: acc
      else if shouldEscape c then
        '%' :: hexDigit (c.toNat / 16) :: hexDigit (c.toNat % 16) :: acc
      else c :: acc)
    [])

/-- Lexicographic order on character lists, for the key sort of url.Values.Encode. -/
def charListLt : List Char → List Char → Bool
  | [], [] => false
  | [], _ :: _ => true
  | _ :: _, [] => false
  | a :: as, b :: bs =>
    if a.toNat < b.toNat then true
    else if b.toNat < a.toNat then false
    else charListLt as bs

/-- Insertion step of the key sort. -/
def insertPair (p : String × String) : List (String × String) → List (String × String)
  | [] => [p]
  | q :: rest =>
    if charListLt q.1.data p.1.data then q :: insertPair p rest
    else p :: q :: rest

/-- Sort key/value pairs by key, as url.Values.Encode does. -/
def sortPairs (l : List (String × String)) : List (String × String) :=
  l.foldr insertPair []

/-- url.Values.Encode of Go: keys sorted, each key and value
query-escaped, joined as k=v pairs with ampersands. -/
def valuesEncode (vals : List (String × String)) : String :=
  String.intercalate "&"
    ((sortPairs vals).map (fun p => queryEscape p.1 ++ "=" ++ queryEscape p.2))

/-- makeURL (src/aws/http.go lines 88-104): an empty host is only
logged, after which `host[len(host)-1:]` panics with a slice bound out
of range (`Except.error`); otherwise the URL is the host, a slash when
the host does not already end in one, and the encoded query values.
The action and token are escaped once by makeURL and once more by
Encode, as in the source. -/
def makeURL (cfg : HTTPConfig) (host action token : String) : Except Unit String :=
  let action := queryEscape action
  let token := queryEscape token
  let vals := [(cfg.action, action), (cfg.token, token)]
  if host = "" then .error ()
  else if host.data.getLast? == some '/' then .ok (host ++ "?" ++ valuesEncode vals)
  else .ok (host ++ "/?" ++ valuesEncode vals)

/-- The token jobs of the token package, one per action kind. -/
inductive Job where
  | terminateJob (region id : String)
  | stopJob (region id : String)
  | forceStopJob (region id : String)
  | whitelistJob (region id : String)
  | delayJob (region id : String) (duration : Int)
  | scheduleJob (region id scaleDown scaleUp : String)
deriving DecidableEq, Repr

/-- Modelled from the spec: token.Tokenize (the token package is not
under src/) serializes the job and signs it with the shared secret,
producing an opaque token; signing a well-formed job succeeds. -/
def tokenize (tokenSecret : String) (j : Job) : Except Unit String :=
  .ok (tokenSecret ++ "." ++ reprStr j)

/-- Modelled from the spec: the duration rendering used to build the
`delay_` action name (Go time.Duration.String); its exact form is
irrelevant to every claim. -/
def durationString (d : Int) : String :=
  toString d ++ "ns"

/-- makeTerminateLink (src/aws/http.go lines 25-34). -/
def makeTerminateLink (cfg : HTTPConfig) (region id tokenSecret apiURL : String) :
    Except Unit String :=
  match tokenize tokenSecret (Job.terminateJob region id) with
  | .error e => .error e
  | .ok term => makeURL cfg apiURL "terminate" term

/-- makeStopLink (src/aws/http.go lines 65-74). -/
def makeStopLink (cfg : HTTPConfig) (region id tokenSecret apiURL : String) :
    Except Unit String :=
  match tokenize tokenSecret (Job.stopJob region id) with
  | .error e => .error e
  | .ok stop => makeURL cfg apiURL "stop" stop

/-- makeForceStopLink (src/aws/http.go lines 77-86); its action name
is also "stop" in the source. -/
def makeForceStopLink (cfg : HTTPConfig) (region id tokenSecret apiURL : String) :
    Except Unit String :=
  match tokenize tokenSecret (Job.forceStopJob region id) with
  | .error e => .error e
  | .ok stop => makeURL cfg apiURL "stop" stop

/-- makeWhitelistLink (src/aws/http.go lines 53-62). -/
def makeWhitelistLink (cfg : HTTPConfig) (region id tokenSecret apiURL : String) :
    Except Unit String :=
  match tokenize tokenSecret (Job.whitelistJob region id) with
  | .error e => .error e
  | .ok whitelist => makeURL cfg apiURL "whitelist" whitelist

/-- makeIgnoreLink (src/aws/http.go lines 37-50). -/
def makeIgnoreLink (cfg : HTTPConfig) (region id tokenSecret apiURL : String)
    (duration : Int) : Except Unit String :=
  match tokenize tokenSecret (Job.delayJob region id duration) with
  | .error e => .error e
  | .ok delay => makeURL cfg apiURL ("delay_" ++ durationString duration) delay

/-- makeScheduleLink (src/aws/http.go lines 13-22). -/
def makeScheduleLink (cfg : HTTPConfig) (region id tokenSecret apiURL : String)
    (scaleDownSchedule scaleUpSchedule : String) : Except Unit String :=
  match tokenize tokenSecret (Job.scheduleJob region id scaleDownSchedule scaleUpSchedule) with
  | .error e => .error e
  | .ok sched => makeURL cfg apiURL "schedule" sched

/-- Concrete configuration with one region and no filter groups for
any kind (a vacuous-match configuration). -/
def emptyGroupsConfig : Config :=
  ⟨["us-east-1"], "reaper_spare", "reaper", [], [], [], [], []⟩

/-- Configuration whose only autoscaling-group filter group matches
resources tagged with the env key. -/
def cfgTaggedEnv : Config :=
  { emptyGroupsConfig with
    autoScalingGroupsFilterGroups := [("g1", [Filter.mk "Tagged" ["env"]])] }

/-- A dependency-flagged autoscaling group tagged env:prod and not
whitelist-tagged. -/
def rdep : Filterable :=
  ⟨.autoScalingGroup, "us-east-1", "asg-dep", "asg-dep", [("env", "prod")],
   true, true, "FIRST", some 3, none⟩

/-- Configuration whose only autoscaling-group filter group contains
the IsDependency false filter. -/
def cfgDepFiltered : Config :=
  { emptyGroupsConfig with
    autoScalingGroupsFilterGroups := [("g1", [Filter.mk "IsDependency" ["false"]])] }

/-- Configuration whose first autoscaling-group filter group contains
a Tagged filter with an empty argument list (evaluating it panics on
the out-of-range index) behind a size guard, and whose second group
matches groups named good. -/
def cfgPanic : Config :=
  { emptyGroupsConfig with
    autoScalingGroupsFilterGroups :=
      [("g1", [Filter.mk "SizeGreaterThan" ["0"], Filter.mk "Tagged" []]),
       ("g2", [Filter.mk "Named" ["good"]])] }

/-- An autoscaling group whose evaluation under cfgPanic reaches the
malformed Tagged filter and panics. -/
def panicky : Filterable :=
  ⟨.autoScalingGroup, "us-east-1", "asg-bad", "bad", [], false, false,
   "FIRST", some 5, none⟩

/-- An autoscaling group that fails the size guard of cfgPanic (so never
reaches the malformed filter) and matches its second group by name. -/
def goodASG : Filterable :=
  ⟨.autoScalingGroup, "us-east-1", "asg-good", "good", [], false, false,
   "FIRST", none, none⟩

/-- A whitelisted volume: tagged with the whitelist tag key of emptyGroupsConfig. -/
def wlVol : Filterable :=
  ⟨.volume, "us-east-1", "vol-wl", "vol-wl", [("reaper_spare", "y")],
   false, false, "FIRST", none, none⟩

/-- A plain volume surviving a vacuous-match configuration. -/
def vol1 : Filterable :=
  ⟨.volume, "us-east-1", "vol-1", "vol-1", [], false, false, "FIRST", none, none⟩

/-- A second plain volume. -/
def vol2 : Filterable :=
  ⟨.volume, "us-east-1", "vol-2", "vol-2", [], false, false, "FIRST", none, none⟩

/-- A plain instance surviving a vacuous-match configuration. -/
def inst1 : Filterable :=
  ⟨.inst, "us-east-1", "i-1", "i-1", [], false, false, "FIRST", none, none⟩

/-- Owner buckets for the dispatch-loop scenario: the only resource of owner a
resource is whitelisted (its bucket filters to empty), owner b keeps
two resources. -/
def ownedBuckets : List (String × List Filterable) :=
  [("a", [wlVol]), ("b", [vol1, vol2])]

/-- Owner bucket with exactly one surviving resource. -/
def aliceOwned : List (String × List Filterable) :=
  [("alice@example.com", [vol1])]

/-- An autoscaling group with no DesiredCapacity (nil pointer). -/
def capless : Filterable :=
  ⟨.autoScalingGroup, "us-east-1", "asg-capless", "capless", [], false, false,
   "FIRST", none, none⟩

/-- The saved-state scenario line of the spec. -/
def goodStateLine : String := "us-east-1,i-999,FIRST|1700000000|1700003600"

/-- The state the scenario line serializes. -/
def savedSt : ReaperState := ⟨.first, 1700000000, 1700003600⟩

/-- The saved-state map the scenario line loads into. -/
def m7 : SavedStates := [("us-east-1", [("i-999", savedSt)])]

/-- A freshly discovered instance with the identity of the scenario and the
default initial state. -/
def inst999 : InstanceR := ⟨"us-east-1", "i-999", newState⟩

theorem filterEval_tagged (r : Filterable) (k : String) :
    filterEval r (Filter.mk "Tagged" [k]) = .ok (tagged r k) := by
  rcases r with ⟨kind, region, id, name, tags, dep, cf, st, cap, since⟩
  cases kind <;> rfl

theorem filterEval_isDep_false (r : Filterable) :
    filterEval r (Filter.mk "IsDependency" ["false"]) = .ok (r.dependency == false) := by
  rcases r with ⟨kind, region, id, name, tags, dep, cf, st, cap, since⟩
  cases kind <;> rfl

/-- Claim C10: for an AutoScalingGroup whose DesiredCapacity is unset,
each of the five size-comparison filters evaluates to non-match for
every argument string (in particular for every integer argument). -/
theorem asgFilter_size_nil_capacity (a : Filterable) (h : a.desiredCapacity = none)
    (s : String) :
    asgFilter a (Filter.mk "SizeGreaterThan" [s]) = .ok false ∧
    asgFilter a (Filter.mk "SizeLessThan" [s]) = .ok false ∧
    asgFilter a (Filter.mk "SizeEqualTo" [s]) = .ok false ∧
    asgFilter a (Filter.mk "SizeLessThanOrEqualTo" [s]) = .ok false ∧
    asgFilter a (Filter.mk "SizeGreaterThanOrEqualTo" [s]) = .ok false := by
  have h1 : asgFilter a (Filter.mk "SizeGreaterThan" [s]) =
      .ok (match parseIntOpt s with
           | some i => sizeGreaterThan a i
           | none => false) := rfl
  have h2 : asgFilter a (Filter.mk "SizeLessThan" [s]) =
      .ok (match parseIntOpt s with
           | some i => sizeLessThan a i
           | none => false) := rfl
  have h3 : asgFilter a (Filter.mk "SizeEqualTo" [s]) =
      .ok (match parseIntOpt s with
           | some i => sizeEqualTo a i
           | none => false) := rfl
  have h4 : asgFilter a (Filter.mk "SizeLessThanOrEqualTo" [s]) =
      .ok (match parseIntOpt s with
           | some i => sizeLessThanOrEqualTo a i
           | none => false) := rfl
  have h5 : asgFilter a (Filter.mk "SizeGreaterThanOrEqualTo" [s]) =
      .ok (match parseIntOpt s with
           | some i => sizeGreaterThanOrEqualTo a i
           | none => false) := rfl
  refine ⟨?_, ?_, ?_, ?_, ?_⟩ <;>
    [rw [h1]; rw [h2]; rw [h3]; rw [h4]; rw [h5]] <;>
    cases hp : parseIntOpt s <;>
    simp [sizeGreaterThan, sizeLessThan, sizeEqualTo,
      sizeLessThanOrEqualTo, sizeGreaterThanOrEqualTo, h]

theorem asgFilter_size_nil_capacity_witness :
    capless.desiredCapacity = none ∧
    asgFilter capless (Filter.mk "SizeEqualTo" ["0"]) = .ok false ∧
    asgFilter capless (Filter.mk "SizeLessThan" ["1"]) = .ok false :=
  ⟨rfl, (asgFilter_size_nil_capacity capless rfl "0").2.2.1,
   (asgFilter_size_nil_capacity capless rfl "1").2.1⟩

/-- Claim C8: with an empty API base URL, makeURL panics with an
out-of-range string slice (after logging) rather than returning an
error value, and therefore so does every tokenized action-link
constructor. -/
theorem makeURL_empty_host_panics :
    (∀ (cfg : HTTPConfig) (action token : String),
        makeURL cfg "" action token = .error ()) ∧
    (∀ (cfg : HTTPConfig) (region id secret : String),
        makeTerminateLink cfg region id secret "" = .error ()) ∧
    (∀ (cfg : HTTPConfig) (region id secret : String),
        makeStopLink cfg region id secret "" = .error ()) ∧
    (∀ (cfg : HTTPConfig) (region id secret : String),
        makeForceStopLink cfg region id secret "" = .error ()) ∧
    (∀ (cfg : HTTPConfig) (region id secret : String),
        makeWhitelistLink cfg region id secret "" = .error ()) ∧
    (∀ (cfg : HTTPConfig) (region id secret : String) (d : Int),
        makeIgnoreLink cfg region id secret "" d = .error ()) ∧
    (∀ (cfg : HTTPConfig) (region id secret down up : String),
        makeScheduleLink cfg region id secret "" down up = .error ()) :=
  ⟨fun _ _ _ => rfl, fun _ _ _ _ => rfl, fun _ _ _ _ => rfl, fun _ _ _ _ => rfl,
   fun _ _ _ _ => rfl, fun _ _ _ _ _ => rfl, fun _ _ _ _ _ _ => rfl⟩

theorem mem_applyFiltersAux_ok (cfg : Config) :
    ∀ (l out : List Filterable), applyFiltersAux cfg l = .ok out →
      ∀ r ∈ out, resourceMatches cfg r = .ok true ∧ r ∈ l := by
  intro l
  induction l with
  | nil =>
    intro out h r hr
    simp only [applyFiltersAux] at h
    cases h
    cases hr
  | cons r0 rest ih =>
    intro out h r hr
    simp only [applyFiltersAux] at h
    cases hm : resourceMatches cfg r0 with
    | error e =>
      rw [hm] at h
      cases ha : applyFiltersAux cfg rest <;> rw [ha] at h <;> cases h
    | ok m =>
      rw [hm] at h
      cases ha : applyFiltersAux cfg rest with
      | error e => rw [ha] at h; cases h
      | ok out' =>
        rw [ha] at h
        cases m with
        | true =>
          simp only [if_true] at h
          cases h
          rcases List.mem_cons.mp hr with h0 | h0
          · subst h0; exact ⟨hm, List.mem_cons_self _ _⟩
          · rcases ih out' ha r h0 with ⟨h1, h2⟩
            exact ⟨h1, List.mem_cons_of_mem _ h2⟩
        | false =>
          simp only [if_false] at h
          cases h
          rcases ih out' ha r hr with ⟨h1, h2⟩
          exact ⟨h1, List.mem_cons_of_mem _ h2⟩

theorem mem_applyFilters (cfg : Config) (rs : List Filterable) (r : Filterable)
    (h : r ∈ applyFilters cfg rs) :
    resourceMatches cfg r = .ok true ∧ r ∈ rs := by
  unfold applyFilters at h
  cases ha : applyFiltersAux cfg rs with
  | error e => rw [ha] at h; cases h
  | ok out => rw [ha] at h; exact mem_applyFiltersAux_ok cfg rs out ha r h

theorem applyFiltersAux_ok_mem (cfg : Config) :
    ∀ (l out : List Filterable), applyFiltersAux cfg l = .ok out →
      ∀ r ∈ l, resourceMatches cfg r = .ok true → r ∈ out := by
  intro l
  induction l with
  | nil => intro out _ r hr; cases hr
  | cons r0 rest ih =>
    intro out h r hr hmatch
    simp only [applyFiltersAux] at h
    cases hm : resourceMatches cfg r0 with
    | error e =>
      rw [hm] at h
      cases ha : applyFiltersAux cfg rest <;> rw [ha] at h <;> cases h
    | ok m =>
      rw [hm] at h
      cases ha : applyFiltersAux cfg rest with
      | error e => rw [ha] at h; cases h
      | ok out' =>
        rw [ha] at h
        rcases List.mem_cons.mp hr with h0 | h0
        · subst h0
          rw [hmatch] at hm
          cases hm
          simp only [if_true] at h
          cases h
          exact List.mem_cons_self _ _
        · have hr' : r ∈ out' := ih out' ha r h0 hmatch
          cases m with
          | true => simp only [if_true] at h; cases h; exact List.mem_cons_of_mem _ hr'
          | false => simp only [if_false] at h; cases h; exact hr'

theorem resourceMatches_ok_true_not_whitelisted (cfg : Config) (r : Filterable)
    (h : resourceMatches cfg r = .ok true) :
    tagged r cfg.whitelistTag = false := by
  simp only [resourceMatches] at h
  cases hgl : groupLoop r (groupsFor cfg r.kind)
      ((groupsFor cfg r.kind).isEmpty || (groupsFor cfg r.kind).all (fun g => g.2.isEmpty)) with
  | error e => rw [hgl] at h; cases h
  | ok matched =>
    rw [hgl, filterEval_tagged] at h
    cases hw : tagged r cfg.whitelistTag with
    | false => rfl
    | true => rw [hw] at h; simp only [if_true] at h; cases h

/-- Claim C5: a resource tagged with the configured whitelist tag key,
with any value, never appears in the filtered reap output even when it
matched filter groups — the whitelist check runs after group matching
and overrides it. -/
theorem whitelisted_not_in_applyFilters (cfg : Config) (rs : List Filterable)
    (r : Filterable) (h : tagged r cfg.whitelistTag = true) :
    r ∉ applyFilters cfg rs := by
  intro hmem
  have h1 := (mem_applyFilters cfg rs r hmem).1
  have h2 := resourceMatches_ok_true_not_whitelisted cfg r h1
  rw [h] at h2
  cases h2

theorem whitelisted_not_in_applyFilters_witness :
    tagged wlVol emptyGroupsConfig.whitelistTag = true ∧
    (applyFiltersGroup wlVol [] = .ok true ∧
      wlVol ∉ applyFilters emptyGroupsConfig [wlVol]) :=
  ⟨rfl, rfl, whitelisted_not_in_applyFilters emptyGroupsConfig [wlVol] wlVol rfl⟩

/-- Claim C1 counterexample: a dependency-flagged resource that
matches every filter of every configured filter group does appear in
the filtered set (applyFilters never consults the Dependency flag),
and the filtered set of the reap loop contains it. -/
theorem dependency_reaped_counterexample :
    rdep.dependency = true ∧
    applyFiltersGroup rdep [Filter.mk "Tagged" ["env"]] = .ok true ∧
    applyFilters cfgTaggedEnv [rdep] = [rdep] ∧
    (reap cfgTaggedEnv [] [rdep]).filtered = [rdep] :=
  ⟨rfl, rfl, rfl, rfl⟩

theorem applyFiltersGroup_isDep_ne_ok_true (r : Filterable)
    (hdep : r.dependency = true) :
    ∀ g : List Filter, Filter.mk "IsDependency" ["false"] ∈ g →
      applyFiltersGroup r g ≠ .ok true := by
  intro g
  induction g with
  | nil => intro h; cases h
  | cons f rest ih =>
    intro hmem
    by_cases hf : f = Filter.mk "IsDependency" ["false"]
    · subst hf
      simp only [applyFiltersGroup, filterEval_isDep_false, hdep]
      intro h
      cases h
    · have hmem' : Filter.mk "IsDependency" ["false"] ∈ rest := by
        rcases List.mem_cons.mp hmem with h0 | h0
        · exact absurd h0.symm hf
        · exact h0
      simp only [applyFiltersGroup]
      cases he : filterEval r f with
      | error e => intro h; cases h
      | ok b =>
        cases b with
        | true => simpa using ih hmem'
        | false => intro h; cases h

theorem groupLoop_ok_eq (r : Filterable) :
    ∀ (groups : List (String × List Filter)) (m0 m : Bool),
      (∀ p ∈ groups, applyFiltersGroup r p.2 ≠ .ok true) →
      groupLoop r groups m0 = .ok m → m = m0 := by
  intro groups
  induction groups with
  | nil =>
    intro m0 m _ h
    simp only [groupLoop] at h
    cases h
    rfl
  | cons p rest ih =>
    intro m0 m hng h
    rcases p with ⟨name, g⟩
    simp only [groupLoop] at h
    cases he : applyFiltersGroup r g with
    | error e => rw [he] at h; cases h
    | ok d =>
      rw [he] at h
      cases d with
      | true => exact absurd he (hng ⟨name, g⟩ (List.mem_cons_self _ _))
      | false =>
        have h' : groupLoop r rest (m0 || false) = .ok m := h
        rw [Bool.or_false] at h'
        exact ih m0 m (fun p hp => hng p (List.mem_cons_of_mem _ hp)) h'

/-- Claim C1 amended: the dependency flag does not by itself exclude a
resource from the reap filtering outcome; such a resource is excluded
exactly when the configured filter groups demand it — in particular,
whenever every configured group for its kind contains the
IsDependency false filter (and at least one group is configured), a
dependency-flagged resource never survives filtering. -/
theorem dependency_excluded_only_by_isDependency_filter (cfg : Config)
    (r : Filterable) (rs : List Filterable)
    (hdep : r.dependency = true)
    (hne : groupsFor cfg r.kind ≠ [])
    (hall : ∀ p ∈ groupsFor cfg r.kind, Filter.mk "IsDependency" ["false"] ∈ p.2) :
    r ∉ applyFilters cfg rs := by
  intro hmem
  have hok := (mem_applyFilters cfg rs r hmem).1
  simp only [resourceMatches] at hok
  have hng : ∀ p ∈ groupsFor cfg r.kind, applyFiltersGroup r p.2 ≠ .ok true :=
    fun p hp => applyFiltersGroup_isDep_ne_ok_true r hdep p.2 (hall p hp)
  have hinit : ((groupsFor cfg r.kind).isEmpty
      || (groupsFor cfg r.kind).all (fun g => g.2.isEmpty)) = false := by
    rcases hg : groupsFor cfg r.kind with _ | ⟨p0, rest⟩
    · exact absurd hg hne
    · have hmem0 : Filter.mk "IsDependency" ["false"] ∈ p0.2 := by
        have := hall p0 (by rw [hg]; exact List.mem_cons_self _ _)
        exact this
      have hp0 : p0.2.isEmpty = false := by
        cases hp2 : p0.2 with
        | nil => rw [hp2] at hmem0; cases hmem0
        | cons a b => rfl
      simp [List.all_cons, hp0]
  rw [hinit] at hok
  cases hgl : groupLoop r (groupsFor cfg r.kind) false with
  | error e => rw [hgl] at hok; cases hok
  | ok matched =>
    rw [hgl] at hok
    have hm0 : matched = false := groupLoop_ok_eq r _ false matched hng hgl
    subst hm0
    cases hw : filterEval r (Filter.mk "Tagged" [cfg.whitelistTag]) with
    | error e => rw [hw] at hok; cases hok
    | ok wl =>
      rw [hw] at hok
      cases wl <;> simp at hok

theorem dependency_excluded_witness :
    rdep.dependency = true ∧
    rdep ∉ applyFilters cfgDepFiltered [rdep] :=
  ⟨rfl,
   dependency_excluded_only_by_isDependency_filter cfgDepFiltered rdep [rdep]
     rfl (by decide) (by decide)⟩

/-- Claim C3 counterexample: a panic during the filter evaluation of one resource
evaluation (the out-of-range argument index of the malformed Tagged
filter) is recovered at the whole-function boundary of applyFilters,
so the entire batch evaluates to the nil (empty) list — the other
resource of the batch, which matches on its own, is not evaluated and
does not appear. -/
theorem filter_panic_empties_batch_counterexample :
    resourceMatches cfgPanic panicky = .error () ∧
    applyFilters cfgPanic [goodASG] = [goodASG] ∧
    applyFilters cfgPanic [panicky, goodASG] = [] :=
  ⟨rfl, rfl, rfl⟩

theorem applyFiltersAux_error_of_mem (cfg : Config) :
    ∀ (l : List Filterable) (r : Filterable), r ∈ l →
      resourceMatches cfg r = .error () → applyFiltersAux cfg l = .error () := by
  intro l
  induction l with
  | nil => intro r hr; cases hr
  | cons r0 rest ih =>
    intro r hr herr
    simp only [applyFiltersAux]
    rcases List.mem_cons.mp hr with h0 | h0
    · subst h0
      rw [herr]
      cases applyFiltersAux cfg rest <;> rfl
    · rw [ih r h0 herr]
      cases hm : resourceMatches cfg r0 with
      | error e => cases e; rfl
      | ok m => rfl

/-- Claim C3 amended: applyFilters recovers from a filter-evaluation
panic at the whole-batch boundary, not per resource: if evaluating any
one resource of the batch panics, the whole batch's filtered result is
the empty list — every resource of the batch is treated as
non-matching and the remaining resources are not evaluated; the panic
is not fatal to the cycle (applyFilters still returns). -/
theorem filter_panic_empties_batch (cfg : Config) (rs : List Filterable)
    (r : Filterable) (h1 : r ∈ rs)
    (h2 : resourceMatches cfg r = .error ()) :
    applyFilters cfg rs = [] := by
  unfold applyFilters
  rw [applyFiltersAux_error_of_mem cfg rs r h1 h2]

theorem filter_panic_empties_batch_witness :
    applyFilters cfgPanic [panicky, goodASG] = [] :=
  filter_panic_empties_batch cfgPanic [panicky, goodASG] panicky
    (List.mem_cons_self _ _) rfl

/-- Claim C2: the batch-dispatch loop `break`s on the first owner
bucket whose filtered resources are empty, so when such a bucket is
iterated before a bucket with two surviving resources, its
batch event is never attempted — evaluated here at the failing
input. -/
theorem dispatch_break_skips_buckets :
    (reap emptyGroupsConfig ownedBuckets []).filteredOwned
        = [("a", []), ("b", [vol1, vol2])] ∧
    2 ≤ ([vol1, vol2] : List Filterable).length ∧
    dispatchAttempts ((reap emptyGroupsConfig ownedBuckets []).filteredOwned) = [] :=
  ⟨rfl, by decide, rfl⟩

/-- Claim C4: the statistics stage of reap emits filtered-count
statistics only for instances, autoscaling groups, cloudformations and
security groups; for volumes the per-region sums are computed but no
reaper.volumes.filtered statistic is ever emitted — even when a volume
survives filtering, as in the evaluated input. -/
theorem volume_filtered_stat_never_emitted :
    (reap emptyGroupsConfig [] [vol1]).filtered = [vol1] ∧
    filteredSums .volume ((reap emptyGroupsConfig [] [vol1]).filtered)
        = [("us-east-1", 1)] ∧
    emittedFilteredStats [inst1]
        = [("reaper.instances.filtered", "us-east-1", 1)] ∧
    (∀ (filtered : List Filterable), ∀ e ∈ emittedFilteredStats filtered,
        e.1 ≠ "reaper.volumes.filtered") := by
  refine ⟨rfl, rfl, rfl, ?_⟩
  intro filtered e he
  simp only [emittedFilteredStats, List.mem_append, List.mem_map] at he
  rcases he with ((⟨p, _, hp⟩ | ⟨p, _, hp⟩) | ⟨p, _, hp⟩) | ⟨p, _, hp⟩ <;>
    subst hp <;> simp

theorem reapOwnedLoop_no_singleton_bucket (cfg : Config) :
    ∀ owned : List (String × List Filterable),
      ∀ p ∈ (reapOwnedLoop cfg owned).2.1, p.2.length ≠ 1 := by
  intro owned
  induction owned with
  | nil => intro p hp; cases hp
  | cons ob rest ih =>
    intro p hp
    rcases ob with ⟨owner, bucket⟩
    by_cases hl : (applyFilters cfg bucket).length = 1
    · simp only [reapOwnedLoop, hl, if_true] at hp
      exact ih p hp
    · simp only [reapOwnedLoop, hl, if_false] at hp
      rcases List.mem_cons.mp hp with h0 | h0
      · subst h0; exact hl
      · exact ih p h0

theorem mem_reapOwnedLoop_singletons (cfg : Config) :
    ∀ (owned : List (String × List Filterable)) (owner : String)
      (bucket : List Filterable) (r : Filterable),
      (owner, bucket) ∈ owned → applyFilters cfg bucket = [r] →
      r ∈ (reapOwnedLoop cfg owned).2.2 := by
  intro owned
  induction owned with
  | nil => intro _ _ _ hmem; cases hmem
  | cons ob rest ih =>
    intro owner bucket r hmem hsingle
    rcases ob with ⟨owner0, bucket0⟩
    rcases List.mem_cons.mp hmem with h0 | h0
    · have hob : owner0 = owner ∧ bucket0 = bucket := by
        have h1 := congrArg Prod.fst h0
        have h2 := congrArg Prod.snd h0
        exact ⟨h1.symm, h2.symm⟩
      rcases hob with ⟨ho, hb⟩
      subst ho; subst hb
      have hl : (applyFilters cfg bucket0).length = 1 := by rw [hsingle]; rfl
      simp only [reapOwnedLoop, hl, if_true, hsingle]
      exact List.mem_append_left _ (List.mem_singleton.mpr rfl)
    · have hr : r ∈ (reapOwnedLoop cfg rest).2.2 := ih owner bucket r h0 hsingle
      by_cases hl : (applyFilters cfg bucket0).length = 1
      · simp only [reapOwnedLoop, hl, if_true]
        exact List.mem_append_right _ hr
      · simp only [reapOwnedLoop, hl, if_false]
        exact hr

theorem applyFilters_singleton_matches (cfg : Config) (bucket : List Filterable)
    (r : Filterable) (h : applyFilters cfg bucket = [r]) :
    resourceMatches cfg r = .ok true :=
  (mem_applyFilters cfg bucket r (by rw [h]; exact List.mem_singleton.mpr rfl)).1

/-- Claim C6: an owner bucket with exactly one surviving resource is
reclassified into the unowned list (so no single-resource batch bucket
is ever recorded for batching), and — provided filtering the final
unowned list does not panic — that resource survives the unowned
filtering pass and is dispatched through the individual-notification
path. -/
theorem singleton_bucket_reclassified (cfg : Config)
    (owned : List (String × List Filterable)) (unowned : List Filterable) :
    (∀ p ∈ (reap cfg owned unowned).filteredOwned, p.2.length ≠ 1) ∧
    (∀ (owner : String) (bucket : List Filterable) (r : Filterable)
        (out : List Filterable),
      (owner, bucket) ∈ owned →
      applyFilters cfg bucket = [r] →
      applyFiltersAux cfg (unowned ++ (reapOwnedLoop cfg owned).2.2) = .ok out →
      r ∈ (reap cfg owned unowned).filteredUnowned) := by
  constructor
  · intro p hp
    have : p ∈ (reapOwnedLoop cfg owned).2.1 := hp
    exact reapOwnedLoop_no_singleton_bucket cfg owned p this
  · intro owner bucket r out hmem hsingle hok
    have hmatch : resourceMatches cfg r = .ok true :=
      applyFilters_singleton_matches cfg bucket r hsingle
    have hsing : r ∈ (reapOwnedLoop cfg owned).2.2 :=
      mem_reapOwnedLoop_singletons cfg owned owner bucket r hmem hsingle
    have hin : r ∈ unowned ++ (reapOwnedLoop cfg owned).2.2 :=
      List.mem_append_right _ hsing
    have hout : r ∈ out := applyFiltersAux_ok_mem cfg _ out hok r hin hmatch
    show r ∈ applyFilters cfg (unowned ++ (reapOwnedLoop cfg owned).2.2)
    unfold applyFilters
    rw [hok]
    exact hout

theorem singleton_bucket_reclassified_witness :
    vol1 ∈ (reap emptyGroupsConfig aliceOwned []).filteredUnowned ∧
    (∀ p ∈ (reap emptyGroupsConfig aliceOwned []).filteredOwned, p.2.length ≠ 1) :=
  ⟨(singleton_bucket_reclassified emptyGroupsConfig aliceOwned []).2
      "alice@example.com" [vol1] vol1 [vol1]
      (List.mem_singleton.mpr rfl) rfl rfl,
   (singleton_bucket_reclassified emptyGroupsConfig aliceOwned []).1⟩

theorem assocFind_cons_self {α : Type} (k0 : String) (v0 : α)
    (rest : List (String × α)) (k : String) (h : (k0 == k) = true) :
    assocFind ((k0, v0) :: rest) k = some v0 := by
  simp only [assocFind, List.find?]
  rw [h]
  rfl

theorem assocFind_cons_ne {α : Type} (k0 : String) (v0 : α)
    (rest : List (String × α)) (k : String) (h : (k0 == k) = false) :
    assocFind ((k0, v0) :: rest) k = assocFind rest k := by
  simp only [assocFind, List.find?]
  rw [h]

theorem assocSet_cons_self {α : Type} (k0 : String) (v0 : α)
    (rest : List (String × α)) (k : String) (v : α) (h : (k0 == k) = true) :
    assocSet ((k0, v0) :: rest) k v = (k0, v) :: rest := by
  simp only [assocSet]
  rw [h]
  rfl

theorem assocSet_cons_ne {α : Type} (k0 : String) (v0 : α)
    (rest : List (String × α)) (k : String) (v : α) (h : (k0 == k) = false) :
    assocSet ((k0, v0) :: rest) k v = (k0, v0) :: assocSet rest k v := by
  simp only [assocSet]
  rw [h]
  rfl

theorem assocFind_assocSet_self {α : Type} (m : List (String × α)) (k : String) (v : α) :
    assocFind (assocSet m k v) k = some v := by
  induction m with
  | nil => exact assocFind_cons_self k v [] k (beq_self_eq_true k)
  | cons p rest ih =>
    rcases p with ⟨k0, v0⟩
    by_cases hk : k0 = k
    · subst hk
      rw [assocSet_cons_self k0 v0 rest k0 v (beq_self_eq_true k0)]
      exact assocFind_cons_self k0 v rest k0 (beq_self_eq_true k0)
    · have hne : (k0 == k) = false := beq_eq_false_iff_ne.mpr hk
      rw [assocSet_cons_ne k0 v0 rest k v hne, assocFind_cons_ne k0 v0 _ k hne]
      exact ih

theorem assocFind_assocSet_ne {α : Type} (m : List (String × α)) (k k' : String) (v : α)
    (h : k' ≠ k) : assocFind (assocSet m k v) k' = assocFind m k' := by
  induction m with
  | nil =>
    have hne : (k == k') = false := beq_eq_false_iff_ne.mpr (fun hh => h hh.symm)
    rw [show assocSet ([] : List (String × α)) k v = [(k, v)] from rfl]
    rw [assocFind_cons_ne k v [] k' hne]
  | cons p rest ih =>
    rcases p with ⟨k0, v0⟩
    by_cases hk : k0 = k
    · subst hk
      have hne : (k0 == k') = false :=
        beq_eq_false_iff_ne.mpr (fun hh => h hh.symm)
      rw [assocSet_cons_self k0 v0 rest k0 v (beq_self_eq_true k0)]
      rw [assocFind_cons_ne k0 v rest k' hne, assocFind_cons_ne k0 v0 rest k' hne]
    · have hne1 : (k0 == k) = false := beq_eq_false_iff_ne.mpr hk
      rw [assocSet_cons_ne k0 v0 rest k v hne1]
      by_cases h0 : k0 = k'
      · subst h0
        rw [assocFind_cons_self k0 v0 _ k0 (beq_self_eq_true k0)]
        rw [assocFind_cons_self k0 v0 rest k0 (beq_self_eq_true k0)]
      · have hne0 : (k0 == k') = false := beq_eq_false_iff_ne.mpr h0
        rw [assocFind_cons_ne k0 v0 _ k' hne0, assocFind_cons_ne k0 v0 rest k' hne0]
        exact ih

theorem assocFind_map_const_of_mem {α : Type} (a : α) :
    ∀ (xs : List String) (k : String), k ∈ xs →
      (assocFind (xs.map (fun r => (r, a))) k).isSome = true := by
  intro xs
  induction xs with
  | nil => intro k hk; cases hk
  | cons x rest ih =>
    intro k hk
    by_cases hx : x = k
    · subst hx
      simp [assocFind, List.find?]
    · have hne : ¬(x == k) = true := by simp [hx]
      rcases List.mem_cons.mp hk with h0 | h0
      · exact absurd h0.symm hx
      · simpa [assocFind, List.find?, hne] using ih k h0

theorem assocFind_map_const_none {α : Type} (a : α) :
    ∀ (xs : List String) (k : String), k ∉ xs →
      assocFind (xs.map (fun r => (r, a))) k = none := by
  intro xs
  induction xs with
  | nil => intro k _; rfl
  | cons x rest ih =>
    intro k hk
    have hx : x ≠ k := fun h => hk (h ▸ List.mem_cons_self _ _)
    have hne : ¬(x == k) = true := by simp [hx]
    have hk' : k ∉ rest := fun h => hk (List.mem_cons_of_mem _ h)
    simpa [assocFind, List.find?, hne] using ih k hk'

theorem loadLoop_isOk (R : List String) :
    ∀ (stateFileLines : List String) (m : SavedStates),
      (∀ l ∈ stateFileLines, (splitOnCharS ',' l).length = 3 →
          (splitOnCharS ',' l).getD 0 "" ∈ R) →
      (∀ region ∈ R, (assocFind m region).isSome = true) →
      ∃ m2, loadLoop stateFileLines m = .ok m2 := by
  intro stateFileLines
  induction stateFileLines with
  | nil => intro m _ _; exact ⟨m, rfl⟩
  | cons l rest ih =>
    intro m hlines hinv
    rcases hs : splitOnCharS ',' l with _ | ⟨f1, _ | ⟨f2, _ | ⟨f3, _ | ⟨f4, rest4⟩⟩⟩⟩
    · simp only [loadLoop, hs]
      exact ih m (fun l0 h0 => hlines l0 (List.mem_cons_of_mem _ h0)) hinv
    · simp only [loadLoop, hs]
      exact ih m (fun l0 h0 => hlines l0 (List.mem_cons_of_mem _ h0)) hinv
    · simp only [loadLoop, hs]
      exact ih m (fun l0 h0 => hlines l0 (List.mem_cons_of_mem _ h0)) hinv
    · have hlen : (splitOnCharS ',' l).length = 3 := by rw [hs]; rfl
      have hreg : f1 ∈ R := by
        have := hlines l (List.mem_cons_self _ _) hlen
        rw [hs] at this
        exact this
      have hsome := hinv f1 hreg
      rcases Option.isSome_iff_exists.mp hsome with ⟨inner, hfind⟩
      simp only [loadLoop, hs, hfind]
      refine ih _ (fun l0 h0 => hlines l0 (List.mem_cons_of_mem _ h0)) ?_
      intro region hr
      by_cases hone : region = f1
      · subst hone
        rw [assocFind_assocSet_self]
        rfl
      · rw [assocFind_assocSet_ne _ _ _ _ hone]
        exact hinv region hr
    · simp only [loadLoop, hs]
      exact ih m (fun l0 h0 => hlines l0 (List.mem_cons_of_mem _ h0)) hinv

theorem loadLoop_error (region id tag : String) :
    ∀ (stateFileLines : List String) (m : SavedStates) (l : String),
      l ∈ stateFileLines → splitOnCharS ',' l = [region, id, tag] →
      assocFind m region = none →
      loadLoop stateFileLines m = .error () := by
  intro stateFileLines
  induction stateFileLines with
  | nil => intro m l hmem; cases hmem
  | cons l0 rest ih =>
    intro m l hmem hsplit hnone
    rcases List.mem_cons.mp hmem with h0 | h0
    · subst h0
      simp only [loadLoop, hsplit, hnone]
    · rcases hs : splitOnCharS ',' l0 with _ | ⟨f1, _ | ⟨f2, _ | ⟨f3, _ | ⟨f4, rest4⟩⟩⟩⟩
      · simp only [loadLoop, hs]
        exact ih m l h0 hsplit hnone
      · simp only [loadLoop, hs]
        exact ih m l h0 hsplit hnone
      · simp only [loadLoop, hs]
        exact ih m l h0 hsplit hnone
      · cases hf : assocFind m f1 with
        | none => simp only [loadLoop, hs, hf]
        | some inner =>
          simp only [loadLoop, hs, hf]
          have hne : region ≠ f1 := by
            intro hh
            rw [hh, hf] at hnone
            cases hnone
          refine ih _ l h0 hsplit ?_
          rw [assocFind_assocSet_ne _ _ _ _ hne]
          exact hnone
      · simp only [loadLoop, hs]
        exact ih m l h0 hsplit hnone

/-- Claim C9: a state-file line with exactly three comma-separated
fields whose region is not one of the configured regions makes
LoadState fault: the inner map for that region was never initialized,
and the assignment to the nil map panics, so the line is fatal rather
than skipped. -/
theorem loadState_unconfigured_region_fatal (cfg : Config)
    (stateFileLines : List String) (l region id tag : String)
    (h1 : l ∈ stateFileLines)
    (h2 : splitOnCharS ',' l = [region, id, tag])
    (h3 : region ∉ cfg.regions) :
    LoadState cfg stateFileLines = .error () := by
  unfold LoadState
  exact loadLoop_error region id tag stateFileLines _ l h1 h2
    (assocFind_map_const_none _ cfg.regions region h3)

theorem loadState_unconfigured_region_fatal_witness :
    LoadState emptyGroupsConfig ["mars,i-1,FIRST|0|0"] = .error () :=
  loadState_unconfigured_region_fatal emptyGroupsConfig ["mars,i-1,FIRST|0|0"]
    "mars,i-1,FIRST|0|0" "mars" "i-1" "FIRST|0|0"
    (List.mem_singleton.mpr rfl) rfl (by decide)

/-- Claim C7 counterexample: a line with exactly three comma-separated
fields whose region is not configured is not parsed into the
saved-state map and is fatal (LoadState panics on the nil inner map),
refuting the universal three-field-line clause of the claim. -/
theorem loadState_three_field_line_fatal_counterexample :
    LoadState emptyGroupsConfig ["eu-west-1,i-1,FIRST|0|0"] = .error () := rfl

/-- Claim C7 amended: every line with exactly three comma-separated
fields whose region is one of the configured regions is parsed into
the saved-state map (lines with other field counts are skipped with a
warning and are never fatal), and the saved state is applied during
discovery to a freshly discovered resource with that region and id,
overriding its default initial state; a three-field line with an
unconfigured region is instead fatal. -/
theorem loadState_wellformed_lines (cfgAny : Config) (stateFileLines : List String)
    (hregions : ∀ l ∈ stateFileLines, (splitOnCharS ',' l).length = 3 →
        (splitOnCharS ',' l).getD 0 "" ∈ cfgAny.regions) :
    (∃ m, LoadState cfgAny stateFileLines = .ok m) ∧
    LoadState emptyGroupsConfig ["not a saved state line", goodStateLine]
        = LoadState emptyGroupsConfig [goodStateLine] ∧
    LoadState emptyGroupsConfig [goodStateLine] = .ok m7 ∧
    applySavedState m7 inst999 = ⟨"us-east-1", "i-999", savedSt⟩ ∧
    savedSt ≠ newState := by
  refine ⟨?_, rfl, rfl, rfl, by decide⟩
  unfold LoadState
  refine loadLoop_isOk cfgAny.regions stateFileLines _ hregions ?_
  intro region hr
  exact assocFind_map_const_of_mem _ cfgAny.regions region hr

theorem loadState_wellformed_lines_witness :
    ∃ m, LoadState emptyGroupsConfig [goodStateLine] = .ok m :=
  (loadState_wellformed_lines emptyGroupsConfig [goodStateLine] (by decide)).1

end Reaper
